import Mathlib

/-!
Verification of the telemetry interpretation and playback-synchronization
engine of the Post-Flight AFCS Telemetry Dashboard.

Column names are modelled as lists of characters; numeric telemetry values
are modelled as rationals.  Each definition is a shallow embedding of the
Python function named in its doc comment.
-/

/-- Lower-casing of a column name, embedding Python `c.lower()`. -/
def lowerName (c : List Char) : List Char := c.map Char.toLower

/-- Whether k occurs at the very start of name. -/
def beginsWith : List Char → List Char → Bool
  | _, [] => true
  | [], _ :: _ => false
  | a :: as, b :: bs => a == b && beginsWith as bs

/-- Substring test `k in name` on an already lower-cased name: k occurs
contiguously somewhere in name. -/
def hasKey : List Char → List Char → Bool
  | name, k =>
    match name with
    | [] => k.isEmpty
    | _ :: rest => beginsWith name k || hasKey rest k

/-- Key "time". -/
def timeK : List Char := "time".toList

/-- Key "alt". -/
def altK : List Char := "alt".toList

/-- Key "vel". -/
def velK : List Char := "vel".toList

/-- Key "yaw". -/
def yawK : List Char := "yaw".toList

/-- Key "set". -/
def setK : List Char := "set".toList

/-- Key "sp". -/
def spK : List Char := "sp".toList

/-- Embedding of `RocketDashboard.detect` of V9.py lines 243-249 (also V8b,
V7, V10): scan the columns in table order and return the first column whose
lower-cased name contains one of the keywords, else None. -/
def detect (cols : List (List Char)) (keywords : List (List Char)) : Option (List Char) :=
  cols.find? (fun c => keywords.any (fun k => hasKey (lowerName c) k))

/-- Fold step assigning a field on every match, so that the last matching
column wins; `acc` starts as None. -/
def lastStep (p : List Char → Bool) (acc : Option (List Char)) (c : List Char) :
    Option (List Char) :=
  if p c then some c else acc

/-- Generic last-match-wins scan over a column list. -/
def lastMatch (p : List Char → Bool) (cols : List (List Char)) : Option (List Char) :=
  cols.foldl (lastStep p) none

/-- Whether a name matches the time rule of V8.py line 187 and
unnamed/part_000 line 239: its lower-cased form contains "time". -/
def isTimeName (c : List Char) : Bool := hasKey (lowerName c) timeK

/-- Embedding of the time-column assignment of V8.py lines 186-188 and
unnamed/part_000 lines 237-240: `for c in columns: if "time" in c.lower():
self.time_col = c`, with `time_col` initialised to None.  Every match
overwrites the field, so the last matching column wins. -/
def lastTimeCol (cols : List (List Char)) : Option (List Char) :=
  lastMatch isTimeName cols

/-- Per-column roles assigned by the elif chain of unnamed/part_000
lines 238-250. -/
inductive RoleP0 where
  | time
  | alt
  | vel
  | yaw
  | yawSp
  | servo
  | nothing
  deriving DecidableEq

/-- Embedding of the elif chain of `RocketDashboard.load_csv` of
unnamed/part_000 lines 238-250: time, alt, vel, then yaw guarded by the
absence of "set" and "sp", then the setpoint rule, then servo/pos. -/
def classifyP0 (c : List Char) : RoleP0 :=
  let low := lowerName c
  if hasKey low timeK then RoleP0.time
  else if hasKey low altK then RoleP0.alt
  else if hasKey low velK then RoleP0.vel
  else if hasKey low yawK && (!hasKey low setK && !hasKey low spK) then RoleP0.yaw
  else if hasKey low setK || hasKey low spK then RoleP0.yawSp
  else if hasKey low ("servo".toList) || hasKey low ("pos".toList) then RoleP0.servo
  else RoleP0.nothing

/-- Categories of `RocketDashboard.detect_columns` of V3.py lines 81-127. -/
inductive RoleV3 where
  | time
  | altitude
  | velocity
  | orientation
  | control
  | setpoint
  | apogee
  | status
  | other
  | excluded
  deriving DecidableEq

/-- Embedding of `RocketDashboard.detect_columns` of V3.py lines 95-125:
the ordered elif chain sorting one column into a category; `numeric` is
whether the column is numeric-valued. -/
def classifyV3 (numeric : Bool) (c : List Char) : RoleV3 :=
  let name := lowerName c
  if hasKey name timeK || name == "t".toList then RoleV3.time
  else if hasKey name altK || hasKey name ("height".toList) then RoleV3.altitude
  else if hasKey name velK || hasKey name ("speed".toList) then RoleV3.velocity
  else if hasKey name yawK || hasKey name ("pitch".toList) || hasKey name ("roll".toList) then
    RoleV3.orientation
  else if hasKey name ("servo".toList) || hasKey name ("fin".toList) then RoleV3.control
  else if hasKey name ("setpoint".toList) || hasKey name ("target".toList) then RoleV3.setpoint
  else if hasKey name ("apogee".toList) then RoleV3.apogee
  else if hasKey name ("status".toList) || hasKey name ("mpu".toList)
      || hasKey name ("bmp".toList) then RoleV3.status
  else if numeric then RoleV3.other
  else RoleV3.excluded

/-- Numerical gradient value at one index, embedding np.gradient(f, t):
one-sided difference at the two ends, the second-order central formula for
unequal spacing at interior points. -/
def gradAt (f t : List ℚ) (i : ℕ) : ℚ :=
  let n := f.length
  if i = 0 then (f.getD 1 0 - f.getD 0 0) / (t.getD 1 0 - t.getD 0 0)
  else if i = n - 1 then
    (f.getD (n - 1) 0 - f.getD (n - 2) 0) / (t.getD (n - 1) 0 - t.getD (n - 2) 0)
  else
    let hs := t.getD i 0 - t.getD (i - 1) 0
    let hd := t.getD (i + 1) 0 - t.getD i 0
    (hs ^ 2 * f.getD (i + 1) 0 + (hd ^ 2 - hs ^ 2) * f.getD i 0 - hd ^ 2 * f.getD (i - 1) 0)
      / (hs * hd * (hd + hs))

/-- Embedding of np.gradient(f, t) as used in V9.py line 256. -/
def npGradient (f t : List ℚ) : List ℚ :=
  (List.range f.length).map (gradAt f t)

/-- Embedding of np.argmax over a boolean array: the index of the first
True, and 0 when no element is True. -/
def firstTrue (l : List Bool) : ℕ :=
  (l.findIdx? (fun b => b)).getD 0

/-- Embedding of np.argmax over a numeric array: the index of the maximum
value, ties broken by the first occurrence. -/
def argmax : List ℚ → ℕ
  | [] => 0
  | [_] => 0
  | a :: b :: rest =>
    if a < (b :: rest).getD (argmax (b :: rest)) 0 then argmax (b :: rest) + 1 else 0

/-- Embedding of ndarray.min: the minimum value of the list. -/
def listMin (l : List ℚ) : ℚ := l.foldl min (l.headD 0)

/-- Row indices of the five flight phases.  V9's detect_phases returns the
time values at these indices; the indices themselves are what the phase
map binds, with landed holding the index whose time the dict reports
(the code's landed-1). -/
structure Phases where
  boost : ℕ
  coast : ℕ
  apogee : ℕ
  descent : ℕ
  landed : ℕ
  deriving DecidableEq

/-- Embedding of `RocketDashboard.detect_phases` of V9.py lines 254-272.
np.gradient raises unless the two series have a common length of at least
two, modelled as none; no other validation exists in the code, so any
equal-length input is processed, monotone time or not.  boost is the first
index with rate above 5 (0 if none); apogee the first index of maximum
altitude; coast the floor midpoint int((boost+apogee)/2); descent the
first index at or after apogee with rate below -2 (apogee if none);
landed is len - argmax(reversed altitude > min+2) - 1. -/
def detect_phases (time altitude : List ℚ) : Option Phases :=
  if time.length = altitude.length ∧ 2 ≤ time.length then
    let vel := npGradient altitude time
    let boost := firstTrue (vel.map (fun v => decide (5 < v)))
    let apogee := argmax altitude
    let descent := apogee + firstTrue ((vel.drop apogee).map (fun v => decide (v < -2)))
    let landed := altitude.length -
      firstTrue (altitude.reverse.map (fun a => decide (listMin altitude + 2 < a)))
    some ⟨boost, (boost + apogee) / 2, apogee, descent, landed - 1⟩
  else none

/-- Whether a sequence is non-decreasing. -/
def nonDecr : List ℚ → Bool
  | [] => true
  | [_] => true
  | a :: b :: rest => decide (a ≤ b) && nonDecr (b :: rest)

/-- Modelled from the spec: the PhaseDetector precondition, equal lengths
of at least two and non-decreasing time.  Used to state the claims; the
source performs no such check itself. -/
def validSeries (time altitude : List ℚ) : Prop :=
  time.length = altitude.length ∧ 2 ≤ time.length ∧ nonDecr time = true

/-- Scrub cursor state: the slider value and whether the playback timer is
running. -/
structure ScrubState where
  index : ℕ
  playing : Bool
  deriving DecidableEq

/-- Embedding of `RocketDashboard.animate` of V9.py lines 348-355 (the same
code appears in V8, V7, V10 and V12b): when the timer is running, a tick
computes v = value+1; if v >= maximum it stops the timer leaving the value
unchanged, otherwise it sets the value to v.  When the timer is stopped no
tick fires, so the state is unchanged; m is the slider maximum,
rowCount-1. -/
def animateV9 (m : ℕ) (s : ScrubState) : ScrubState :=
  if s.playing then
    if m ≤ s.index + 1 then { s with playing := false }
    else { index := s.index + 1, playing := true }
  else s

/-- Embedding of `RocketDashboard.animate` of V8b.py lines 246-251: when
the timer is running, a tick increments the value if it is below the
maximum, else it stops the timer. -/
def animateV8b (m : ℕ) (s : ScrubState) : ScrubState :=
  if s.playing then
    if s.index < m then { s with index := s.index + 1 }
    else { s with playing := false }
  else s

/-- Embedding of the scrub-state effect of `RocketDashboard.load_csv` of
V9.py lines 277-330: the time and altitude columns are located with
detect; if either is missing, indexing the frame with None raises before
the slider is reached (modelled as none, scrub state untouched); on
success the only slider effect is setMaximum(len(time)-1), which clamps
the current value into the new range but does not reset it, and the
playback timer is never stopped. -/
def load_csvV9 (s : ScrubState) (cols : List (List Char)) (newLen : ℕ) :
    Option ScrubState :=
  if (detect cols [timeK]).isSome ∧ (detect cols [altK]).isSome then
    some ⟨min s.index (newLen - 1), s.playing⟩
  else none

/-- Column names required by `RocketDashboard.load_data` of V1.py
lines 126-129 (exact names, not substrings). -/
def requiredV1 : List (List Char) :=
  ["time".toList, "pitch".toList, "roll".toList, "yaw".toList,
   "altitude".toList, "velocity".toList]

/-- Embedding of the slider effect of `RocketDashboard.load_data` of V1.py
lines 122-132: a ValueError is raised when any required column is absent
(none); otherwise setMaximum(len-1) is followed by setValue(0), so the
cursor lands on row 0.  V1 has no playback timer at all. -/
def load_dataV1 (cols : List (List Char)) : Option ℕ :=
  if requiredV1.all (fun r => cols.contains r) then some 0 else none

/-- One notification pass over the views in registration order, following
Python loop semantics: each view is invoked in turn; a view flagged true
raises when invoked, which aborts the loop there, so later views are never
invoked.  Returns the per-view invoked flags and whether the loop
completed without an exception escaping. -/
def deliverViews : List Bool → List Bool × Bool
  | [] => ([], true)
  | r :: rest =>
    if r then (true :: rest.map (fun _ => false), false)
    else
      let p := deliverViews rest
      (true :: p.1, p.2)

/-- Outcome of `RocketDashboard.update_all` of V12b.py lines 343-370: the
unprotected card loop runs first; if it raises, the attitude update inside
the later try block is never reached and the exception escapes update_all
to the Qt dispatcher. -/
structure PublishV12b where
  delivered : List Bool
  attitudeUpdated : Bool
  raised : Bool
  deriving DecidableEq

/-- Embedding of `RocketDashboard.update_all` of V12b.py lines 343-370 for
a given list of card behaviours. -/
def update_allV12b (cards : List Bool) : PublishV12b :=
  ⟨(deliverViews cards).1, (deliverViews cards).2, !(deliverViews cards).2⟩

/-- Embedding of `RocketDashboard.slider_moved` of unnamed/part_000 lines
338-365: the entire handler body sits in one try/except-pass, so an
exception from any view update abandons the rest of the pass silently;
the second component records whether an exception escapes to the caller,
which is never. -/
def slider_movedP0 (views : List Bool) : List Bool × Bool :=
  ((deliverViews views).1, false)

/-- State of one V9/V8 GraphCard: the plotted series (None until plot has
run), the cursor line x position, and the marker dot. -/
structure GraphCardState where
  data : Option (List ℚ)
  cursorX : ℚ
  dot : ℚ × ℚ
  deriving DecidableEq

/-- Embedding of `GraphCard.update_cursor` of V9.py lines 110-118 (the
same guard and body appear in V8 lines 51-57): when no data has been
plotted the handler returns immediately; otherwise it moves the cursor
line to t and the dot to (t, data[index]). -/
def update_cursorCard (card : GraphCardState) (t : ℚ) (index : ℕ) : GraphCardState :=
  match card.data with
  | none => card
  | some d => { card with cursorX := t, dot := (t, d.getD index 0) }

/-- Embedding of `RocketDashboard.update_all` of V8.py lines 233-244: when
no table is loaded the handler returns immediately; otherwise every card
is notified with the time value at the index. -/
def update_allV8 (data : Option (List ℚ)) (cards : List GraphCardState) (index : ℕ) :
    List GraphCardState :=
  match data with
  | none => cards
  | some timeVals =>
      cards.map (fun c => update_cursorCard c (timeVals.getD index 0) index)

/-- Embedding of `RocketDashboard.slider_update` of V7.py lines 164-174:
when no table is loaded the handler returns immediately; otherwise each
graph (modelled by its cursor/dot display pair) is set to the time value
and its column value at the index. -/
def slider_updateV7 (data : Option (List ℚ × List (List ℚ)))
    (graphs : List (ℚ × ℚ)) (index : ℕ) : List (ℚ × ℚ) :=
  match data with
  | none => graphs
  | some d =>
      (graphs.zip d.2).map (fun g => (d.1.getD index 0, g.2.getD index 0))

open Matrix

/-- Degree-to-radian conversion, embedding np.radians. -/
noncomputable def toRadians (x : ℝ) : ℝ := x * (Real.pi / 180)

/-- Rotation about the x axis, embedding Rx of `Rocket3D.rotation_matrix`
of V10.py lines 129-131 and of `AttitudeViewer.update` of V12b.py lines
174-178. -/
noncomputable def RxMat (r : ℝ) : Matrix (Fin 3) (Fin 3) ℝ :=
  !![1, 0, 0; 0, Real.cos r, -Real.sin r; 0, Real.sin r, Real.cos r]

/-- Rotation about the y axis, embedding Ry of V10.py lines 133-135 and
V12b.py lines 180-184. -/
noncomputable def RyMat (p : ℝ) : Matrix (Fin 3) (Fin 3) ℝ :=
  !![Real.cos p, 0, Real.sin p; 0, 1, 0; -Real.sin p, 0, Real.cos p]

/-- Rotation about the z axis, embedding Rz of V10.py lines 137-139 and
V12b.py lines 186-190. -/
noncomputable def RzMat (y : ℝ) : Matrix (Fin 3) (Fin 3) ℝ :=
  !![Real.cos y, -Real.sin y, 0; Real.sin y, Real.cos y, 0; 0, 0, 1]

/-- Embedding of `Rocket3D.rotation_matrix` of V10.py lines 125-141: the
three angles arrive in degrees, are converted by np.radians, and the
result is Rz @ Ry @ Rx. -/
noncomputable def rotation_matrixV10 (r p y : ℝ) : Matrix (Fin 3) (Fin 3) ℝ :=
  RzMat (toRadians y) * RyMat (toRadians p) * RxMat (toRadians r)

/-- Embedding of the rotation built by `AttitudeViewer.update` of V12b.py
lines 167-192: R = Rz @ Ry @ Rx on the angles as passed (update_all
converts to radians before calling). -/
noncomputable def attitudeV12b (pitch roll yaw : ℝ) : Matrix (Fin 3) (Fin 3) ℝ :=
  RzMat yaw * RyMat pitch * RxMat roll

/-- Generic first-match lemma: find? over a list whose prefix has no match
returns the first matching element. -/
theorem find_first_of_nomatch {α : Type} (p : α → Bool) (pre post : List α) (c : α)
    (hc : p c = true) (hpre : ∀ d ∈ pre, p d = false) :
    (pre ++ c :: post).find? p = some c := by
  induction pre with
  | nil => simp [List.find?, hc]
  | cons a tl ih =>
      have ha : p a = false := hpre a (List.mem_cons_self a tl)
      simp only [List.cons_append, List.find?, ha]
      exact ih (fun d hd => hpre d (List.mem_cons_of_mem a hd))

/-- Folding the last-match step over a list with no match keeps the
accumulator. -/
theorem foldl_lastStep_nomatch (p : List Char → Bool) (l : List (List Char))
    (acc : Option (List Char)) (h : ∀ d ∈ l, p d = false) :
    l.foldl (lastStep p) acc = acc := by
  induction l generalizing acc with
  | nil => rfl
  | cons a tl ih =>
      have ha : p a = false := h a (List.mem_cons_self a tl)
      rw [List.foldl_cons]
      have hstep : lastStep p acc a = acc := by simp [lastStep, ha]
      rw [hstep]
      exact ih acc (fun d hd => h d (List.mem_cons_of_mem a hd))

/-- Last-match-wins: if no column after c matches, the fold returns c,
regardless of what came before. -/
theorem lastMatch_eq_last (p : List Char → Bool) (pre post : List (List Char))
    (c : List Char) (hc : p c = true) (hpost : ∀ d ∈ post, p d = false) :
    lastMatch p (pre ++ c :: post) = some c := by
  unfold lastMatch
  rw [List.foldl_append]
  simp only [List.foldl, lastStep, hc, if_pos rfl]
  exact foldl_lastStep_nomatch p post (some c) hpost

/-- C4 counterexample: with columns "atime" and "btime" both matching the
time rule, V9-style detect returns the first, but the V8 and part_000
assignment loop leaves the Time role on the last matching column "btime",
so a later matching column does receive the Time role. -/
theorem C4_time_last_wins_cex :
    detect ["atime".toList, "btime".toList] [timeK] = some ("atime".toList) ∧
    lastTimeCol ["atime".toList, "btime".toList] = some ("btime".toList) ∧
    ("btime".toList ≠ "atime".toList) := by
  refine ⟨by decide, by decide, by decide⟩

/-- C4 amended: classification of the time column is first-match-wins in
V9's detect, but last-match-wins in V8 and the unnamed full variant: for a
matching column c, detect returns c when nothing before it matches, while
the assignment loop returns c when nothing after it matches. -/
theorem C4_time_first_vs_last (pre post : List (List Char)) (c : List Char)
    (hc : isTimeName c = true) :
    ((∀ d ∈ pre, isTimeName d = false) → detect (pre ++ c :: post) [timeK] = some c) ∧
    ((∀ d ∈ post, isTimeName d = false) → lastTimeCol (pre ++ c :: post) = some c) := by
  constructor
  · intro hpre
    unfold detect
    have heq : (fun x => [timeK].any (fun k => hasKey (lowerName x) k)) = isTimeName := by
      funext x
      simp [isTimeName, List.any]
    rw [heq]
    exact find_first_of_nomatch isTimeName pre post c hc hpre
  · intro hpost
    exact lastMatch_eq_last isTimeName pre post c hc hpost

/-- C4 witness: instantiation at columns "atime", then "t_time", then
"btime": detect picks "t_time" when the prefix has no match, and the
assignment loop picks it when the suffix has no match. -/
theorem C4_time_first_vs_last_witness :
    ((∀ d ∈ [("apogee".toList)], isTimeName d = false) →
      detect (["apogee".toList] ++ "t_time".toList :: ["alt".toList]) [timeK] =
        some ("t_time".toList)) ∧
    ((∀ d ∈ [("alt".toList)], isTimeName d = false) →
      lastTimeCol (["apogee".toList] ++ "t_time".toList :: ["alt".toList]) =
        some ("t_time".toList)) :=
  C4_time_first_vs_last ["apogee".toList] ["alt".toList] ("t_time".toList) (by decide)

/-- C5 counterexample: in V3's detect_columns, the orientation rule is
evaluated before the setpoint rule with no set/sp exclusion, so the column
"yaw_setpoint" is classified as Orientation (the yaw/roll/pitch bucket),
not as Setpoint. -/
theorem C5_yaw_setpoint_cex :
    classifyV3 true ("yaw_setpoint".toList) = RoleV3.orientation ∧
    classifyV3 true ("yaw_setpoint".toList) ≠ RoleV3.setpoint := by
  refine ⟨by decide, by decide⟩

/-- C5 amended: in the unnamed full variant the yaw rule excludes names
containing "set" or "sp", so a yaw+set/sp column is never given the Yaw
role, and it receives the setpoint role whenever the earlier time, alt and
vel rules do not claim it; but V3 evaluates the orientation rule first, so
"yaw_setpoint" lands in Orientation there. -/
theorem C5_setpoint_precedence (c : List Char)
    (hset : hasKey (lowerName c) setK = true ∨ hasKey (lowerName c) spK = true) :
    classifyP0 c ≠ RoleP0.yaw ∧
    (hasKey (lowerName c) timeK = false → hasKey (lowerName c) altK = false →
      hasKey (lowerName c) velK = false → classifyP0 c = RoleP0.yawSp) ∧
    classifyV3 true ("yaw_setpoint".toList) = RoleV3.orientation := by
  have hguard : (hasKey (lowerName c) yawK &&
      (!hasKey (lowerName c) setK && !hasKey (lowerName c) spK)) = false := by
    rcases hset with h | h <;> simp [h]
  refine ⟨?_, ?_, by decide⟩
  · unfold classifyP0
    rcases hset with h | h <;>
      simp only [hguard] <;>
      split <;> simp_all <;> split <;> simp_all <;> split <;> simp_all
  · intro ht ha hv
    have hsor : (hasKey (lowerName c) setK || hasKey (lowerName c) spK) = true := by
      rcases hset with h | h <;> simp [h]
    unfold classifyP0
    simp only [ht, ha, hv, hguard, hsor, Bool.false_eq_true, if_false, if_true]

/-- C5 witness: instantiation at the column "yaw_setpoint", which contains
"set"; it is not classified Yaw by the full variant and is classified as
the yaw setpoint column there, while V3 puts it in Orientation. -/
theorem C5_setpoint_precedence_witness :
    classifyP0 ("yaw_setpoint".toList) ≠ RoleP0.yaw ∧
    (hasKey (lowerName ("yaw_setpoint".toList)) timeK = false →
      hasKey (lowerName ("yaw_setpoint".toList)) altK = false →
      hasKey (lowerName ("yaw_setpoint".toList)) velK = false →
      classifyP0 ("yaw_setpoint".toList) = RoleP0.yawSp) ∧
    classifyV3 true ("yaw_setpoint".toList) = RoleV3.orientation :=
  C5_setpoint_precedence ("yaw_setpoint".toList) (Or.inl (by decide))

section ConcretePhaseEvaluation

attribute [local semireducible] Rat.add Rat.mul Rat.inv Rat.sub

/-- C1 counterexample: the series time [0,1,2,3], altitude [100,0,50,100]
satisfies the precondition, yet detect_phases yields boost index 2, coast
index 1 and apogee index 0, so Boost is not at most Coast (nor Apogee):
the rate first exceeds the boost threshold only after the first-occurring
maximum. -/
theorem C1_phase_order_cex :
    validSeries [0, 1, 2, 3] [100, 0, 50, 100] ∧
    detect_phases [0, 1, 2, 3] [100, 0, 50, 100] = some ⟨2, 1, 0, 0, 3⟩ ∧
    ¬ ((2 : ℕ) ≤ 1) := by
  refine ⟨⟨by decide, by decide, by decide⟩, by decide, by decide⟩

end ConcretePhaseEvaluation

/-- The argmax of a nonempty list is a valid index. -/
theorem argmax_lt_length : ∀ (l : List ℚ), l ≠ [] → argmax l < l.length
  | [], h => absurd rfl h
  | [_], _ => by simp [argmax]
  | a :: b :: rest, _ => by
      have ih := argmax_lt_length (b :: rest) (by simp)
      simp only [List.length_cons] at ih
      by_cases hlt : a < (b :: rest).getD (argmax (b :: rest)) 0
      · simp only [argmax, if_pos hlt, List.length_cons]
        omega
      · simp only [argmax, if_neg hlt, List.length_cons]
        omega

/-- The value at the argmax dominates every entry of the list. -/
theorem argmax_le : ∀ (l : List ℚ) (j : ℕ), j < l.length →
    l.getD j 0 ≤ l.getD (argmax l) 0
  | [], j, h => by simp at h
  | [x], j, h => by
      have hj : j = 0 := by simpa using Nat.lt_one_iff.mp (by simpa using h)
      subst hj
      simp [argmax]
  | a :: b :: rest, j, h => by
      by_cases hlt : a < (b :: rest).getD (argmax (b :: rest)) 0
      · simp only [argmax, if_pos hlt]
        cases j with
        | zero =>
            simpa using le_of_lt hlt
        | succ j1 =>
            have hj : j1 < (b :: rest).length := by
              simpa [Nat.succ_lt_succ_iff] using h
            simpa using argmax_le (b :: rest) j1 hj
      · simp only [argmax, if_neg hlt]
        push_neg at hlt
        cases j with
        | zero => simp
        | succ j1 =>
            have hj : j1 < (b :: rest).length := by
              simpa [Nat.succ_lt_succ_iff] using h
            have := argmax_le (b :: rest) j1 hj
            simpa using le_trans this hlt

/-- Every entry strictly before the argmax is strictly below the maximum:
ties are broken by the first occurrence. -/
theorem argmax_first : ∀ (l : List ℚ) (j : ℕ), j < argmax l →
    l.getD j 0 < l.getD (argmax l) 0
  | [], j, h => by simp [argmax] at h
  | [_], j, h => by simp [argmax] at h
  | a :: b :: rest, j, h => by
      by_cases hlt : a < (b :: rest).getD (argmax (b :: rest)) 0
      · simp only [argmax, if_pos hlt] at h ⊢
        cases j with
        | zero => simpa using hlt
        | succ j1 =>
            have hj : j1 < argmax (b :: rest) := by omega
            simpa using argmax_first (b :: rest) j1 hj
      · simp only [argmax, if_neg hlt] at h
        omega

/-- Inversion of detect_phases: the guard held and each index field equals
the expression the code computes for it. -/
theorem detect_phases_eq (time alt : List ℚ) (p : Phases)
    (hp : detect_phases time alt = some p) :
    time.length = alt.length ∧ 2 ≤ time.length ∧
    p.apogee = argmax alt ∧
    p.coast = (p.boost + p.apogee) / 2 ∧
    p.descent = p.apogee +
      firstTrue (((npGradient alt time).drop p.apogee).map (fun v => decide (v < -2))) := by
  unfold detect_phases at hp
  split at hp
  · next hcond =>
      obtain ⟨h1, h2⟩ := hcond
      have hp2 := Option.some.inj hp
      subst hp2
      exact ⟨h1, h2, rfl, rfl, rfl⟩
  · exact absurd hp (by simp)

/-- C1 amended: whenever the boost index does not exceed the apogee index
(as in any flight whose above-threshold climb precedes the maximum), the
phase indices of detect_phases satisfy Boost <= Coast <= Apogee <=
Descent; without that hypothesis the chain can fail, since Boost is
computed independently of Apogee. -/
theorem C1_phase_order (time alt : List ℚ) (p : Phases)
    (hp : detect_phases time alt = some p) (hba : p.boost ≤ p.apogee) :
    p.boost ≤ p.coast ∧ p.coast ≤ p.apogee ∧ p.apogee ≤ p.descent := by
  obtain ⟨-, -, -, hco, hde⟩ := detect_phases_eq time alt p hp
  refine ⟨?_, ?_, ?_⟩ <;> omega

/-- C7 amended: detect_phases performs no monotonicity validation: for
every pair of equal-length series of length at least two it returns a
phase map, non-decreasing time or not; only a length mismatch (which makes
np.gradient raise) yields no result, and no InvalidSeries error exists. -/
theorem C7_no_validation (time alt : List ℚ) :
    (time.length = alt.length → 2 ≤ time.length →
      (detect_phases time alt).isSome = true) ∧
    (time.length ≠ alt.length → detect_phases time alt = none) := by
  constructor
  · intro h1 h2
    unfold detect_phases
    rw [if_pos ⟨h1, h2⟩]
    rfl
  · intro h
    unfold detect_phases
    rw [if_neg]
    intro hc
    exact h hc.1

section ConcretePhaseEvaluation2

attribute [local semireducible] Rat.add Rat.mul Rat.inv Rat.sub

/-- C7 counterexample: the time series [0,2,1] is not non-decreasing, so
the precondition fails, yet detect_phases silently returns a phase map
instead of an InvalidSeries error. -/
theorem C7_invalid_series_cex :
    ¬ validSeries [0, 2, 1] [0, 5, 3] ∧
    (detect_phases [0, 2, 1] [0, 5, 3]).isSome = true := by
  refine ⟨fun h => absurd h.2.2 (by decide), by decide⟩

/-- C7 witness: both halves of the amended claim at concrete inputs: a
non-monotonic time series of matching length is processed, and a length
mismatch yields no result. -/
theorem C7_no_validation_witness :
    (detect_phases [0, 2, 1] [0, 5, 3]).isSome = true ∧
    detect_phases [0, 1] [1, 2, 3] = none :=
  ⟨(C7_no_validation [0, 2, 1] [0, 5, 3]).1 rfl (by decide),
   (C7_no_validation [0, 1] [1, 2, 3]).2 (by decide)⟩

/-- C1 witness: on the documented exemplar series the boost index 0 is at
most the apogee index 4, and the phase order Boost <= Coast <= Apogee <=
Descent follows with indices 0, 2, 4, 4. -/
theorem C1_phase_order_witness :
    (0 : ℕ) ≤ 2 ∧ (2 : ℕ) ≤ 4 ∧ (4 : ℕ) ≤ 4 :=
  C1_phase_order [0, 1, 2, 3, 4, 5, 6, 7, 8] [0, 10, 40, 90, 95, 60, 20, 2, 1]
    ⟨0, 2, 4, 4, 6⟩ (by decide) (by decide)

/-- C8: the apogee index of detect_phases is a valid index whose altitude
dominates every entry, entries strictly before it are strictly smaller
(ties broken by first occurrence), and on the documented exemplar series
[0,10,40,90,95,60,20,2,1] the apogee index is 4. -/
theorem C8_apogee_argmax :
    (∀ time alt p, detect_phases time alt = some p →
      p.apogee < alt.length ∧
      (∀ j, j < alt.length → alt.getD j 0 ≤ alt.getD p.apogee 0) ∧
      (∀ j, j < p.apogee → alt.getD j 0 < alt.getD p.apogee 0)) ∧
    (detect_phases [0, 1, 2, 3, 4, 5, 6, 7, 8]
      [0, 10, 40, 90, 95, 60, 20, 2, 1]).map Phases.apogee = some 4 := by
  constructor
  · intro time alt p hp
    obtain ⟨h1, h2, hap, -, -⟩ := detect_phases_eq time alt p hp
    have hne : alt ≠ [] := by
      intro hnil
      rw [hnil] at h1
      simp only [List.length_nil] at h1
      omega
    refine ⟨?_, ?_, ?_⟩
    · rw [hap]
      exact argmax_lt_length alt hne
    · intro j hj
      rw [hap]
      exact argmax_le alt j hj
    · intro j hj
      rw [hap] at hj ⊢
      exact argmax_first alt j hj
  · decide

/-- C8 witness: instantiated at the exemplar series, the altitude at index
2 is at most the altitude at the apogee index. -/
theorem C8_apogee_argmax_witness :
    ([0, 10, 40, 90, 95, 60, 20, 2, 1] : List ℚ).getD 2 0 ≤
      ([0, 10, 40, 90, 95, 60, 20, 2, 1] : List ℚ).getD 4 0 :=
  (C8_apogee_argmax.1 [0, 1, 2, 3, 4, 5, 6, 7, 8] [0, 10, 40, 90, 95, 60, 20, 2, 1]
    ⟨0, 2, 4, 4, 6⟩ (by decide)).2.1 2 (by decide)

end ConcretePhaseEvaluation2

/-- One applied V9 tick, stated as an equation usable for rewriting. -/
theorem animateV9_apply (m : ℕ) (s : ScrubState) :
    animateV9 m s =
      if s.playing = true then
        if m ≤ s.index + 1 then ⟨s.index, false⟩ else ⟨s.index + 1, true⟩
      else s := rfl

/-- One applied V8b tick, stated as an equation usable for rewriting. -/
theorem animateV8b_apply (m : ℕ) (s : ScrubState) :
    animateV8b m s =
      if s.playing = true then
        if s.index < m then ⟨s.index + 1, s.playing⟩ else ⟨s.index, false⟩
      else s := rfl

/-- Closed form of the V9 tick trajectory from a fresh playing state: after
n ticks the value is min n (m-1) and the timer runs exactly while
n <= m-1, so the slider never reaches its maximum m. -/
theorem animateV9_iter (m n : ℕ) :
    ((animateV9 m)^[n] ⟨0, true⟩).index = min n (m - 1) ∧
    (((animateV9 m)^[n] ⟨0, true⟩).playing = true ↔ n ≤ m - 1) := by
  induction n with
  | zero => simp
  | succ k ih =>
      obtain ⟨hi, hp⟩ := ih
      rw [Function.iterate_succ_apply']
      by_cases hplay : ((animateV9 m)^[k] ⟨0, true⟩).playing = true
      · have hk : k ≤ m - 1 := hp.mp hplay
        by_cases h2 : m ≤ ((animateV9 m)^[k] ⟨0, true⟩).index + 1
        · rw [animateV9_apply, if_pos hplay, if_pos h2]
          rw [hi] at h2
          constructor
          · show ((animateV9 m)^[k] ⟨0, true⟩).index = _
            rw [hi]
            omega
          · show (false = true) ↔ _
            simp only [Bool.false_eq_true, false_iff]
            omega
        · rw [animateV9_apply, if_pos hplay, if_neg h2]
          rw [hi] at h2
          constructor
          · show ((animateV9 m)^[k] ⟨0, true⟩).index + 1 = _
            rw [hi]
            omega
          · show (true = true) ↔ _
            simp only [true_iff]
            omega
      · have hk : ¬ (k ≤ m - 1) := fun hh => hplay (hp.mpr hh)
        rw [animateV9_apply, if_neg hplay]
        constructor
        · rw [hi]
          omega
        · rw [hp]
          omega

/-- Closed form of the V8b tick trajectory from a fresh playing state:
after n ticks the value is min n m and the timer runs exactly while
n <= m, so the last row is reached and one further tick stops playback. -/
theorem animateV8b_iter (m n : ℕ) :
    ((animateV8b m)^[n] ⟨0, true⟩).index = min n m ∧
    (((animateV8b m)^[n] ⟨0, true⟩).playing = true ↔ n ≤ m) := by
  induction n with
  | zero => simp
  | succ k ih =>
      obtain ⟨hi, hp⟩ := ih
      rw [Function.iterate_succ_apply']
      by_cases hplay : ((animateV8b m)^[k] ⟨0, true⟩).playing = true
      · have hk : k ≤ m := hp.mp hplay
        by_cases h2 : ((animateV8b m)^[k] ⟨0, true⟩).index < m
        · rw [animateV8b_apply, if_pos hplay, if_pos h2]
          rw [hi] at h2
          constructor
          · show ((animateV8b m)^[k] ⟨0, true⟩).index + 1 = _
            rw [hi]
            omega
          · show (((animateV8b m)^[k] ⟨0, true⟩).playing = true) ↔ _
            rw [hp]
            omega
        · rw [animateV8b_apply, if_pos hplay, if_neg h2]
          rw [hi] at h2
          constructor
          · show ((animateV8b m)^[k] ⟨0, true⟩).index = _
            rw [hi]
            omega
          · show (false = true) ↔ _
            simp only [Bool.false_eq_true, false_iff]
            omega
      · have hk : ¬ (k ≤ m) := fun hh => hplay (hp.mpr hh)
        rw [animateV8b_apply, if_neg hplay]
        constructor
        · rw [hi]
          omega
        · rw [hp]
          omega

/-- C2 counterexample: with rowCount 10 the slider maximum is 9; starting
Playing at value 0, nine V9 ticks leave the value at 8, not 9 -- the last
row is never reached -- while nine V8b ticks do reach 9 but leave the
machine Playing, so it has not auto-transitioned to Stopped, and the 10th
V8b tick is not a no-op: it stops the timer. -/
theorem C2_tick_cex :
    (animateV9 9)^[9] ⟨0, true⟩ = ⟨8, false⟩ ∧
    ((animateV9 9)^[9] ⟨0, true⟩).index ≠ 9 ∧
    (animateV8b 9)^[9] ⟨0, true⟩ = ⟨9, true⟩ ∧
    (animateV8b 9)^[10] ⟨0, true⟩ ≠ (animateV8b 9)^[9] ⟨0, true⟩ := by
  refine ⟨by decide, by decide, by decide, by decide⟩

/-- C2 amended: from a fresh playing state over slider maximum m
(rowCount-1), each V9 tick increments the value by exactly one until the
value reaches m-1, after which the next tick stops the timer without
moving, so the trajectory is index = min n (m-1), playing while n <= m-1
and the maximum is never reached; the V8b variant instead follows
index = min n m, playing while n <= m, reaching the last row and stopping
only on the tick after it.  Neither wraps around. -/
theorem C2_tick_semantics (m n : ℕ) :
    (((animateV9 m)^[n] ⟨0, true⟩).index = min n (m - 1) ∧
      (((animateV9 m)^[n] ⟨0, true⟩).playing = true ↔ n ≤ m - 1)) ∧
    (((animateV8b m)^[n] ⟨0, true⟩).index = min n m ∧
      (((animateV8b m)^[n] ⟨0, true⟩).playing = true ↔ n ≤ m)) :=
  ⟨animateV9_iter m n, animateV8b_iter m n⟩

/-- C3 counterexample: a V9 reload of a 10-row table that has time and
altitude columns, performed while the cursor sits at row 5 with the timer
running, leaves the cursor at row 5 and the timer running: the index is
not reset to 0 and the machine is not forced to Stopped. -/
theorem C3_reload_cex :
    load_csvV9 ⟨5, true⟩ ["time".toList, "alt".toList] 10 = some ⟨5, true⟩ ∧
    (5 : ℕ) ≠ 0 ∧ (true : Bool) ≠ false := by
  refine ⟨by decide, by decide, by decide⟩

/-- C3 amended: on a successful V9 reload the cursor is merely clamped to
the new range (min of old index and rowCount-1) and the playing flag is
preserved, not reset; a table lacking an altitude column makes the V9 load
raise partway with the scrub state untouched (so the stale display
remains) rather than producing an empty phase map; only V1's load_data
resets the cursor to row 0 on success. -/
theorem C3_reload (s : ScrubState) (cols : List (List Char)) (n : ℕ) :
    (∀ s2, load_csvV9 s cols n = some s2 →
      s2.index = min s.index (n - 1) ∧ s2.playing = s.playing) ∧
    (detect cols [altK] = none → load_csvV9 s cols n = none) ∧
    (∀ i, load_dataV1 cols = some i → i = 0) := by
  refine ⟨?_, ?_, ?_⟩
  · intro s2 h
    unfold load_csvV9 at h
    split at h
    · have h2 := Option.some.inj h
      subst h2
      exact ⟨rfl, rfl⟩
    · exact absurd h (by simp)
  · intro halt
    unfold load_csvV9
    rw [if_neg]
    intro hc
    rw [halt] at hc
    exact absurd hc.2 (by simp)
  · intro i h
    unfold load_dataV1 at h
    split at h
    · exact (Option.some.inj h).symm
    · exact absurd h (by simp)

/-- C3 witness: the first half of the amended claim, instantiated at the
state of the counterexample reload. -/
theorem C3_reload_witness :
    ((⟨5, true⟩ : ScrubState).index = min (⟨5, true⟩ : ScrubState).index (10 - 1) ∧
      (⟨5, true⟩ : ScrubState).playing = (⟨5, true⟩ : ScrubState).playing) :=
  (C3_reload ⟨5, true⟩ ["time".toList, "alt".toList] 10).1 ⟨5, true⟩ (by decide)

/-- Entries of a constant-false map are false at every index. -/
theorem getD_const_false : ∀ (l : List Bool) (j : ℕ),
    (l.map (fun _ => false)).getD j false = false
  | [], _ => rfl
  | _ :: _, 0 => rfl
  | _ :: tl, j + 1 => getD_const_false tl j

/-- Delivery pass characterisation: flags have one entry per view, the
pass completes iff no view raises, and view i is invoked iff no view
before it raises. -/
theorem deliverViews_spec (views : List Bool) :
    (deliverViews views).1.length = views.length ∧
    ((deliverViews views).2 = !views.any (fun b => b)) ∧
    ∀ i, i < views.length →
      (deliverViews views).1.getD i false = !((views.take i).any (fun b => b)) := by
  induction views with
  | nil => exact ⟨rfl, rfl, fun i hi => absurd hi (by simp)⟩
  | cons v rest ih =>
      obtain ⟨hl, ho, hg⟩ := ih
      by_cases hv : v = true
      · subst hv
        refine ⟨?_, ?_, ?_⟩
        · simp [deliverViews]
        · simp [deliverViews]
        · intro i hi
          cases i with
          | zero => simp [deliverViews]
          | succ j =>
              show (true :: rest.map (fun _ => false)).getD (j + 1) false = _
              rw [List.getD_cons_succ, getD_const_false]
              simp
      · have hv2 : v = false := by
          revert hv
          cases v <;> simp
        subst hv2
        refine ⟨?_, ?_, ?_⟩
        · show (true :: (deliverViews rest).1).length = _
          simp [hl]
        · show (deliverViews rest).2 = _
          rw [ho]
          simp
        · intro i hi
          cases i with
          | zero => simp [deliverViews]
          | succ j =>
              have hj : j < rest.length := by simpa using hi
              show (true :: (deliverViews rest).1).getD (j + 1) false = _
              rw [List.getD_cons_succ, hg j hj]
              simp

/-- C9 counterexample: with two registered cards where the first raises
and the second is healthy, V12b's update_all invokes the first card but
never the second, and the exception escapes the publish: one broken view
does prevent delivery to a subsequently registered view. -/
theorem C9_isolation_cex :
    (update_allV12b [true, false]).delivered = [true, false] ∧
    (update_allV12b [true, false]).raised = true := by
  refine ⟨by decide, by decide⟩

/-- C9 amended: delivery is synchronous and in registration order, but a
raising view aborts delivery to every later-registered view: a view is
invoked exactly when no earlier view raises; V12b propagates the exception
out of the publish exactly when some view raises, while the unnamed full
variant swallows it (its handler never raises to the caller) after
abandoning the rest of the pass. -/
theorem C9_delivery (views : List Bool) (i : ℕ) (h : i < views.length) :
    ((update_allV12b views).delivered.getD i false =
      !((views.take i).any (fun b => b))) ∧
    ((update_allV12b views).raised = views.any (fun b => b)) ∧
    ((slider_movedP0 views).2 = false) := by
  obtain ⟨hl, ho, hg⟩ := deliverViews_spec views
  refine ⟨hg i h, ?_, rfl⟩
  show (!(deliverViews views).2) = _
  rw [ho]
  simp

/-- C9 witness: instantiated at views [false, true, false] and the third
view: the raising second view prevents its delivery. -/
theorem C9_delivery_witness :
    ((update_allV12b [false, true, false]).delivered.getD 2 false =
      !(([false, true, false].take 2).any (fun b => b))) ∧
    ((update_allV12b [false, true, false]).raised =
      [false, true, false].any (fun b => b)) ∧
    ((slider_movedP0 [false, true, false]).2 = false) :=
  C9_delivery [false, true, false] 2 (by decide)

/-- C10: before any data is loaded or plotted, a cursor notification is a
safe no-op in every cited handler: a V9/V8 card with data = None is
returned unchanged by update_cursor, V8's update_all with no table loaded
returns its cards unchanged, and V7's slider_update with no table loaded
returns its graphs unchanged; none of them raises (each is total here). -/
theorem C10_preload_noop (cursorX : ℚ) (dot : ℚ × ℚ) (t : ℚ) (index : ℕ)
    (cards : List GraphCardState) (graphs : List (ℚ × ℚ)) :
    update_cursorCard ⟨none, cursorX, dot⟩ t index = ⟨none, cursorX, dot⟩ ∧
    update_allV8 none cards index = cards ∧
    slider_updateV7 none graphs index = graphs :=
  ⟨rfl, rfl, rfl⟩

/-- Transpose of the x-axis factor, as a literal. -/
theorem RxMat_transpose (a : ℝ) :
    (RxMat a)ᵀ = !![1, 0, 0; 0, Real.cos a, Real.sin a; 0, -Real.sin a, Real.cos a] := by
  ext i j
  fin_cases i <;> fin_cases j <;> rfl

/-- Transpose of the y-axis factor, as a literal. -/
theorem RyMat_transpose (a : ℝ) :
    (RyMat a)ᵀ = !![Real.cos a, 0, -Real.sin a; 0, 1, 0; Real.sin a, 0, Real.cos a] := by
  ext i j
  fin_cases i <;> fin_cases j <;> rfl

/-- Transpose of the z-axis factor, as a literal. -/
theorem RzMat_transpose (a : ℝ) :
    (RzMat a)ᵀ = !![Real.cos a, Real.sin a, 0; -Real.sin a, Real.cos a, 0; 0, 0, 1] := by
  ext i j
  fin_cases i <;> fin_cases j <;> rfl

/-- The x-axis factor is orthogonal. -/
theorem RxMat_orth (a : ℝ) : (RxMat a)ᵀ * RxMat a = 1 := by
  have h := Real.sin_sq_add_cos_sq a
  rw [RxMat_transpose, RxMat, Matrix.mul_fin_three, Matrix.one_fin_three]
  ext i j
  fin_cases i <;> fin_cases j <;>
    simp [Matrix.vecHead, Matrix.vecTail, Matrix.cons_val_zero, Matrix.cons_val_one,
      Matrix.head_cons, Matrix.tail_cons] <;>
    nlinarith [h]

/-- The y-axis factor is orthogonal. -/
theorem RyMat_orth (a : ℝ) : (RyMat a)ᵀ * RyMat a = 1 := by
  have h := Real.sin_sq_add_cos_sq a
  rw [RyMat_transpose, RyMat, Matrix.mul_fin_three, Matrix.one_fin_three]
  ext i j
  fin_cases i <;> fin_cases j <;>
    simp [Matrix.vecHead, Matrix.vecTail, Matrix.cons_val_zero, Matrix.cons_val_one,
      Matrix.head_cons, Matrix.tail_cons] <;>
    nlinarith [h]

/-- The z-axis factor is orthogonal. -/
theorem RzMat_orth (a : ℝ) : (RzMat a)ᵀ * RzMat a = 1 := by
  have h := Real.sin_sq_add_cos_sq a
  rw [RzMat_transpose, RzMat, Matrix.mul_fin_three, Matrix.one_fin_three]
  ext i j
  fin_cases i <;> fin_cases j <;>
    simp [Matrix.vecHead, Matrix.vecTail, Matrix.cons_val_zero, Matrix.cons_val_one,
      Matrix.head_cons, Matrix.tail_cons] <;>
    nlinarith [h]

/-- The x-axis factor has determinant one. -/
theorem RxMat_det (a : ℝ) : (RxMat a).det = 1 := by
  have h := Real.sin_sq_add_cos_sq a
  rw [Matrix.det_fin_three]
  simp [RxMat]
  nlinarith [h]

/-- The y-axis factor has determinant one. -/
theorem RyMat_det (a : ℝ) : (RyMat a).det = 1 := by
  have h := Real.sin_sq_add_cos_sq a
  rw [Matrix.det_fin_three]
  simp [RyMat]
  nlinarith [h]

/-- The z-axis factor has determinant one. -/
theorem RzMat_det (a : ℝ) : (RzMat a).det = 1 := by
  have h := Real.sin_sq_add_cos_sq a
  rw [Matrix.det_fin_three]
  simp [RzMat]
  nlinarith [h]

/-- Cancellation through an orthogonal factor. -/
theorem orth_cancel {M X : Matrix (Fin 3) (Fin 3) ℝ} (h : Mᵀ * M = 1) :
    Mᵀ * (M * X) = X := by
  rw [← Matrix.mul_assoc, h, Matrix.one_mul]

/-- The composed rotation is orthogonal. -/
theorem rot_compose_orth (r p y : ℝ) :
    (RzMat y * RyMat p * RxMat r)ᵀ * (RzMat y * RyMat p * RxMat r) = 1 := by
  simp only [Matrix.transpose_mul, Matrix.mul_assoc]
  rw [orth_cancel (RzMat_orth y), orth_cancel (RyMat_orth p)]
  exact RxMat_orth r

/-- The composed rotation has determinant one. -/
theorem rot_compose_det (r p y : ℝ) :
    (RzMat y * RyMat p * RxMat r).det = 1 := by
  rw [Matrix.det_mul, Matrix.det_mul, RzMat_det, RyMat_det, RxMat_det]
  norm_num

/-- C6: both attitude solvers return exactly the composition
Rz(yaw) * Ry(pitch) * Rx(roll) (V10 after its degree-to-radian
conversion), and for all angles the result R satisfies Rт * R = 1 and
det R = 1. -/
theorem C6_rotation_orthonormal (r p y : ℝ) :
    (rotation_matrixV10 r p y)ᵀ * rotation_matrixV10 r p y = 1 ∧
    (rotation_matrixV10 r p y).det = 1 ∧
    (attitudeV12b p r y)ᵀ * attitudeV12b p r y = 1 ∧
    (attitudeV12b p r y).det = 1 ∧
    rotation_matrixV10 r p y =
      RzMat (toRadians y) * RyMat (toRadians p) * RxMat (toRadians r) ∧
    attitudeV12b p r y = RzMat y * RyMat p * RxMat r :=
  ⟨rot_compose_orth (toRadians r) (toRadians p) (toRadians y),
   rot_compose_det (toRadians r) (toRadians p) (toRadians y),
   rot_compose_orth r p y,
   rot_compose_det r p y,
   rfl, rfl⟩
